import Mathlib

/-!
Verification of the scrollguard native classification core.

Shallow embedding of the C++ sources:
- `src/app/src/main/cpp/jni/llama_jni.cpp` (LlamaWrapper::Impl, content_utils)
- `src/app/src/main/cpp/jni/content_classifier.cpp` (ContentClassifier)
- `src/app/src/main/cpp/jni/model_loader.cpp` (ModelLoader)

Texts are modelled as `List Char`, `float` as `ℚ` (all weights are small
decimal literals; comparisons and max/min on these values agree with the
IEEE single-precision computations of the source), file systems as functions
from a path to an optional byte list, and wall-clock timing fields are
omitted (environment-dependent, not part of any claim).
-/

namespace Scrollguard

/-- Result record of `ClassificationResult` in `llama_wrapper.h` (the
`processing_time_ms` field is wall-clock data and is omitted). In the C++
default construction, `reason` and `error_message` are empty strings and
`is_productive`/`confidence` are indeterminate; the failure paths of the
source never write them, which we model by leaving the C++ defaults
`false`/`0` in failure results, mirroring that callers must not consume
them when `success` is false. -/
structure ClassificationResult where
  is_productive : Bool
  confidence : ℚ
  reason : String
  success : Bool
  error_message : String
deriving DecidableEq

/-- ASCII `::tolower` as applied by the source (C locale). -/
def toLowerAscii (c : Char) : Char :=
  if 'A' ≤ c ∧ c ≤ 'Z' then Char.ofNat (c.toNat + 32) else c

/-- Whitespace class of the ECMAScript regex `\s` restricted to ASCII,
as matched by `std::regex("\\s+")` in the source. -/
def isWsChar (c : Char) : Bool :=
  c = ' ' ∨ c = '\t' ∨ c = '\n' ∨ c = '\x0b' ∨ c = '\x0c' ∨ c = '\r'

/-- `std::regex_replace(s, std::regex("\\s+"), " ")`: every maximal run of
whitespace characters is replaced by a single space. -/
def collapseWs : List Char → List Char
  | [] => []
  | [c] => if isWsChar c then [' '] else [c]
  | c :: d :: rest =>
    if isWsChar c then
      if isWsChar d then collapseWs (d :: rest)
      else ' ' :: collapseWs (d :: rest)
    else c :: collapseWs (d :: rest)

/-- The normalization performed at the top of
`content_utils::classify_with_heuristics` (llama_jni.cpp:356-362):
lower-case, then collapse whitespace runs. No trimming and no length cap
happen on this path. -/
def heuristicNormalize (content : List Char) : List Char :=
  collapseWs (content.map toLowerAscii)

/-- Unproductive indicator phrases with severity weights
(llama_jni.cpp:370-385). -/
def unproductive_patterns : List (List Char × ℚ) :=
  [("you won't believe".toList, mkRat 9 10),
   ("shocking".toList, mkRat 8 10),
   ("viral".toList, mkRat 7 10),
   ("trending".toList, mkRat 7 10),
   ("clickbait".toList, mkRat 9 10),
   ("drama".toList, mkRat 7 10),
   ("gossip".toList, mkRat 8 10),
   ("must see".toList, mkRat 7 10),
   ("watch this".toList, mkRat 6 10),
   ("epic fail".toList, mkRat 8 10),
   ("omg".toList, mkRat 6 10),
   ("wtf".toList, mkRat 7 10),
   ("insane".toList, mkRat 7 10),
   ("crazy".toList, mkRat 6 10)]

/-- Productive indicator phrases with severity weights
(llama_jni.cpp:388-403). -/
def productive_patterns : List (List Char × ℚ) :=
  [("how to".toList, mkRat 9 10),
   ("tutorial".toList, mkRat 9 10),
   ("learn".toList, mkRat 8 10),
   ("education".toList, mkRat 9 10),
   ("guide".toList, mkRat 8 10),
   ("research".toList, mkRat 9 10),
   ("analysis".toList, mkRat 8 10),
   ("study".toList, mkRat 8 10),
   ("insight".toList, mkRat 8 10),
   ("explanation".toList, mkRat 8 10),
   ("understand".toList, mkRat 7 10),
   ("science".toList, mkRat 8 10),
   ("technology".toList, mkRat 7 10),
   ("knowledge".toList, mkRat 8 10)]

/-- `text.find(pat) != std::string::npos`: `pat` occurs as a contiguous
substring of `text`. -/
def hasSubstr (pat : List Char) : List Char → Bool
  | [] => pat.isEmpty
  | c :: rest => pat.isPrefixOf (c :: rest) || hasSubstr pat rest

/-- The per-table scoring loop of llama_jni.cpp:405-420: starting from 0,
take the max of the weights of the phrases occurring as substrings. -/
def maxMatchWeight (patterns : List (List Char × ℚ)) (text : List Char) : ℚ :=
  patterns.foldl (fun acc pw => if hasSubstr pw.1 text then max acc pw.2 else acc) 0

/-- The keyword decision stage of `classify_with_heuristics`
(llama_jni.cpp:364-436): defaults productive/0.6/"neutral_content", then the
four-way comparison of the two table maxima. -/
def keywordStage (content : List Char) : ClassificationResult :=
  let norm := heuristicNormalize content
  let u := maxMatchWeight unproductive_patterns norm
  let p := maxMatchWeight productive_patterns norm
  if u < p then
    { is_productive := true, confidence := p, reason := "educational_keywords",
      success := true, error_message := "" }
  else if p < u then
    { is_productive := false, confidence := u, reason := "unproductive_keywords",
      success := true, error_message := "" }
  else if 0 < u ∧ 0 < p then
    { is_productive := true, confidence := mkRat 1 2, reason := "mixed_content",
      success := true, error_message := "" }
  else
    { is_productive := true, confidence := mkRat 6 10, reason := "neutral_content",
      success := true, error_message := "" }

/-- ASCII `std::isalpha` in the C locale. -/
def isAlphaAscii (c : Char) : Bool :=
  ('A' ≤ c ∧ c ≤ 'Z') ∨ ('a' ≤ c ∧ c ≤ 'z')

/-- ASCII `std::isupper` in the C locale. -/
def isUpperAscii (c : Char) : Bool :=
  'A' ≤ c ∧ c ≤ 'Z'

/-- Number of alphabetic characters of the original text (llama_jni.cpp:441-450). -/
def letterCount (content : List Char) : Nat :=
  content.countP (fun c => isAlphaAscii c)

/-- Number of upper-case characters of the original text (llama_jni.cpp:441-450). -/
def capsCount (content : List Char) : Nat :=
  content.countP (fun c => isUpperAscii c)

/-- Trigger of the excessive-caps override (llama_jni.cpp:452):
`letter_count > 0 && (float)caps_count / letter_count > 0.5f`.
The quotient is written with the smart constructor `mkRat`, which agrees
with division `(capsCount : ℚ) / (letterCount : ℚ)` whenever the (guarded)
denominator is nonzero; see `capsCond_eq_div` below. -/
def capsCond (content : List Char) : Bool :=
  0 < letterCount content ∧
    mkRat 1 2 < mkRat (capsCount content) (letterCount content)

/-- The excessive-caps override (llama_jni.cpp:440-456). -/
def capsOverride (content : List Char) (r : ClassificationResult) : ClassificationResult :=
  if capsCond content then
    { r with is_productive := false, confidence := max r.confidence (mkRat 7 10),
             reason := "excessive_caps" }
  else r

/-- Trigger of the excessive-punctuation override (llama_jni.cpp:459-462):
more than three `!` or more than three `?` in the original text. -/
def punctCond (content : List Char) : Bool :=
  3 < content.count '!' ∨ 3 < content.count '?'

/-- The excessive-punctuation override (llama_jni.cpp:458-466). -/
def punctOverride (content : List Char) (r : ClassificationResult) : ClassificationResult :=
  if punctCond content then
    { r with is_productive := false, confidence := max r.confidence (mkRat 6 10),
             reason := "excessive_punctuation" }
  else r

/-- `content_utils::classify_with_heuristics` (llama_jni.cpp:353-483):
keyword decision followed by the two surface-statistics overrides, in the
order of the source; `success` is set to true at the end. -/
def classify_with_heuristics (content : List Char) : ClassificationResult :=
  punctOverride content (capsOverride content (keywordStage content))

/-- A failure `ClassificationResult` as built by the early returns of
`LlamaWrapper::Impl::classify_content`: `success = false`, the given error
message, all other fields left at their C++ defaults. -/
def failureResult (msg : String) : ClassificationResult :=
  { is_productive := false, confidence := 0, reason := "",
    success := false, error_message := msg }

/-- `LlamaWrapper::Impl::classify_content` (llama_jni.cpp:85-138) in
fallback mode (no `LLAMA_CPP_AVAILABLE`): reject when the model is not
loaded, then reject empty content, otherwise delegate to the heuristic
classifier. The `loaded` flag is the `model_loaded_` member. -/
def classify_content (loaded : Bool) (content : List Char) : ClassificationResult :=
  if !loaded then failureResult "Model not loaded"
  else if content.isEmpty then failureResult "Empty content"
  else classify_with_heuristics content

/-! ### Content classifier with context (content_classifier.cpp) -/

/-- `ContentClassifier::ContentCategory` (content_classifier.cpp:19-26). -/
inductive ContentCategory where
  | NEWS
  | ENTERTAINMENT
  | EDUCATIONAL
  | SOCIAL
  | COMMERCIAL
  | UNKNOWN
deriving DecidableEq

/-- `ContentClassifier::ClassificationContext` (content_classifier.cpp:28-33). -/
structure ClassificationContext where
  app_package : List Char
  category : ContentCategory
  language : List Char
  content_length : Int
deriving DecidableEq

/-- Exact rational addition through the smart constructor `mkRat`, used
instead of `Rat.add` (which Batteries marks irreducible) so that concrete
runs of the embedded code evaluate inside the kernel; `ratAdd_eq_add`
proves it is ordinary addition on `ℚ`. -/
def ratAdd (a b : ℚ) : ℚ :=
  mkRat (a.num * b.den + b.num * a.den) (a.den * b.den)

/-- Exact rational multiplication through `mkRat`; `ratMul_eq_mul` proves
it is ordinary multiplication on `ℚ`. -/
def ratMul (a b : ℚ) : ℚ :=
  mkRat (a.num * b.num) (a.den * b.den)

/-- The originating-application hint block of
`ContentClassifier::apply_context_adjustments` (content_classifier.cpp:111-124). -/
def appAdjust (ctx : ClassificationContext) (r : ClassificationResult) : ClassificationResult :=
  if hasSubstr "linkedin".toList ctx.app_package then
    if r.is_productive then
      { r with confidence := min 1 (ratAdd r.confidence (mkRat 2 10)),
               reason := r.reason ++ "_linkedin_boost" }
    else r
  else if hasSubstr "tiktok".toList ctx.app_package then
    if !r.is_productive then
      { r with confidence := min 1 (ratAdd r.confidence (mkRat 1 10)),
               reason := r.reason ++ "_tiktok_penalty" }
    else r
  else r

/-- The detected-category block of
`ContentClassifier::apply_context_adjustments` (content_classifier.cpp:126-153). -/
def categoryAdjust (ctx : ClassificationContext) (r : ClassificationResult) : ClassificationResult :=
  match ctx.category with
  | ContentCategory.EDUCATIONAL =>
    if r.is_productive then
      { r with confidence := min 1 (ratAdd r.confidence (mkRat 15 100)),
               reason := r.reason ++ "_educational_boost" }
    else r
  | ContentCategory.ENTERTAINMENT =>
    if !r.is_productive then
      { r with confidence := min 1 (ratAdd r.confidence (mkRat 1 10)),
               reason := r.reason ++ "_entertainment_penalty" }
    else r
  | ContentCategory.COMMERCIAL =>
    if !r.is_productive then
      { r with confidence := min 1 (ratAdd r.confidence (mkRat 2 10)),
               reason := r.reason ++ "_commercial_penalty" }
    else r
  | _ => r

/-- The content-length block of
`ContentClassifier::apply_context_adjustments` (content_classifier.cpp:155-166). -/
def lengthAdjust (ctx : ClassificationContext) (r : ClassificationResult) : ClassificationResult :=
  if ctx.content_length < 50 then
    { r with confidence := ratMul r.confidence (mkRat 8 10),
             reason := r.reason ++ "_short_content" }
  else if 500 < ctx.content_length then
    if r.is_productive then
      { r with confidence := min 1 (ratAdd r.confidence (mkRat 1 10)),
               reason := r.reason ++ "_long_content_boost" }
    else r
  else r

/-- `ContentClassifier::apply_context_adjustments`
(content_classifier.cpp:107-169): the three blocks run sequentially on
the result, in the order of the source. -/
def apply_context_adjustments (r : ClassificationResult) (ctx : ClassificationContext) :
    ClassificationResult :=
  lengthAdjust ctx (categoryAdjust ctx (appAdjust ctx r))

/-- News indicator phrases (content_classifier.cpp:57-60). -/
def news_keywords : List (List Char) :=
  ["breaking".toList, "news".toList, "report".toList, "according to".toList,
   "sources say".toList, "announcement".toList, "official".toList,
   "statement".toList, "update".toList]

/-- Educational indicator phrases (content_classifier.cpp:63-66). -/
def educational_keywords : List (List Char) :=
  ["learn".toList, "tutorial".toList, "how to".toList, "guide".toList,
   "explanation".toList, "research".toList, "study".toList, "analysis".toList,
   "science".toList, "education".toList]

/-- Entertainment indicator phrases (content_classifier.cpp:69-72). -/
def entertainment_keywords : List (List Char) :=
  ["funny".toList, "hilarious".toList, "meme".toList, "viral".toList,
   "trending".toList, "celebrity".toList, "movie".toList, "music".toList,
   "game".toList, "fun".toList]

/-- Commercial indicator phrases (content_classifier.cpp:75-78). -/
def commercial_keywords : List (List Char) :=
  ["buy".toList, "sale".toList, "discount".toList, "offer".toList,
   "deal".toList, "price".toList, "product".toList, "review".toList,
   "sponsored".toList, "ad".toList]

/-- `ContentClassifier::count_keywords` (content_classifier.cpp:97-105):
each keyword contributes at most once, however often it repeats in the text. -/
def count_keywords (content : List Char) (keywords : List (List Char)) : Nat :=
  keywords.foldl (fun c k => if hasSubstr k content then c + 1 else c) 0

/-- `ContentClassifier::determine_category` (content_classifier.cpp:51-94):
lower-case the text, score the four keyword sets by distinct matching
phrases, then the if-chain over the maximum. -/
def determine_category (content : List Char) : ContentCategory :=
  let lower := content.map toLowerAscii
  let news_score := count_keywords lower news_keywords
  let educational_score := count_keywords lower educational_keywords
  let entertainment_score := count_keywords lower entertainment_keywords
  let commercial_score := count_keywords lower commercial_keywords
  let max_score := max (max news_score educational_score)
                       (max entertainment_score commercial_score)
  if max_score = 0 then ContentCategory.UNKNOWN
  else if max_score = news_score then ContentCategory.NEWS
  else if max_score = educational_score then ContentCategory.EDUCATIONAL
  else if max_score = entertainment_score then ContentCategory.ENTERTAINMENT
  else if max_score = commercial_score then ContentCategory.COMMERCIAL
  else ContentCategory.SOCIAL

/-! ### Content preparation for prompts (llama_jni.cpp:485-502) -/

/-- The character set `" \t\n\r"` used by the trim step of
`content_utils::prepare_content_for_analysis`. -/
def isTrimChar (c : Char) : Bool :=
  c = ' ' ∨ c = '\t' ∨ c = '\n' ∨ c = '\r'

/-- The trim step of `prepare_content_for_analysis` (llama_jni.cpp:493-494):
erase the leading run of `" \t\n\r"` characters, then the trailing run. -/
def trimWs (l : List Char) : List Char :=
  ((l.dropWhile isTrimChar).reverse.dropWhile isTrimChar).reverse

/-- `content_utils::prepare_content_for_analysis` (llama_jni.cpp:485-502):
collapse whitespace runs, trim, then cap at 500 characters appending the
truncation marker `"..."`. No lower-casing happens on this path. -/
def prepare_content_for_analysis (raw_content : List Char) : List Char :=
  let collapsed := collapseWs raw_content
  let trimmed := trimWs collapsed
  if 500 < trimmed.length then trimmed.take 500 ++ "...".toList else trimmed

/-! ### Model loader (model_loader.cpp) -/

/-- Abstract file system: a path maps to the byte contents of a readable
file, or to `none` when the file is absent or unreadable. -/
def FileSystem : Type := List Char → Option (List Nat)

/-- `LlamaWrapper::Impl::load_model` (llama_jni.cpp:36-60) in fallback mode
(no `LLAMA_CPP_AVAILABLE`): open the artifact with `std::ifstream` and test
`good()` — which succeeds exactly when the file is readable, with no
emptiness or content check — and set `model_loaded_` on success. The
result is `(return value, model_loaded_ after the call)`; on failure
`model_loaded_` is left as it was. -/
def load_model (fs : FileSystem) (model_path : List Char) (loaded : Bool) : Bool × Bool :=
  match fs model_path with
  | none => (false, loaded)
  | some _ => (true, true)

/-- The 4-byte GGUF magic marker checked by the validator
(model_loader.cpp:92), as bytes: "GGUF". -/
def ggufMagic : List Nat := [71, 71, 85, 70]

/-- `ModelLoader::validate_model_file` (model_loader.cpp:72-99): the file
must open, be at least 1024 bytes, and begin with the GGUF magic. -/
def validate_model_file (fs : FileSystem) (filepath : List Char) : Bool :=
  match fs filepath with
  | none => false
  | some bytes =>
    if bytes.length < 1024 then false
    else if bytes.take 4 = ggufMagic then true
    else false

/-- `ModelLoader::LoadStatus` (model_loader.cpp:30-37). -/
inductive LoadStatus where
  | NOT_STARTED
  | DOWNLOADING
  | VALIDATING
  | LOADING
  | LOADED
  | ERROR
deriving DecidableEq

/-- `ModelLoader::LoadProgress` (model_loader.cpp:39-44), with `progress`
as an exact rational. -/
structure LoadProgress where
  status : LoadStatus
  progress : ℚ
  message : String
  error_message : String
deriving DecidableEq

/-- Terminal statuses of an acquisition run. -/
def isTerminal (s : LoadStatus) : Bool :=
  s = LoadStatus.LOADED ∨ s = LoadStatus.ERROR

/-- Every adjacent pair of the list satisfies `f` (kernel-computable
analogue of `List.Chain'`). -/
def chainHolds (f : ℚ → ℚ → Bool) : List ℚ → Bool
  | [] => true
  | [_] => true
  | a :: b :: rest => f a b && chainHolds f (b :: rest)

/-- The sequence of `LoadProgress` events delivered to the progress
callback by one run of `ModelLoader::download_model_async`
(model_loader.cpp:135-184), in delivery order: the initial event, the
eleven loop events for `i = 0, 10, ..., 100`, and the terminal event.
`success` is the outcome of `create_placeholder_model` at the target
path. -/
def download_events (success : Bool) : List LoadProgress :=
  { status := LoadStatus.DOWNLOADING, progress := 0,
    message := "Starting download...", error_message := "" } ::
  ((List.range 11).map fun i =>
    { status := LoadStatus.DOWNLOADING, progress := mkRat (10 * i) 100,
      message := "Downloading... " ++ toString (10 * i) ++ "%",
      error_message := "" }) ++
  [{ status := if success then LoadStatus.LOADED else LoadStatus.ERROR,
     progress := 1,
     message := if success then "Download completed" else "Download failed",
     error_message := if success then "" else "Failed to create model file" }]

/-- A base productive result with confidence 0.5, as in the spec's
context-adjustment example. -/
def sample_base_result : ClassificationResult :=
  { is_productive := true, confidence := mkRat 1 2, reason := "neutral_content",
    success := true, error_message := "" }

/-- A context with category Educational, a neutral application package and a
mid-range content length, as in the spec's context-adjustment example. -/
def sample_edu_context : ClassificationContext :=
  { app_package := "com.example.app".toList, category := ContentCategory.EDUCATIONAL,
    language := "en".toList, content_length := 100 }

/-! ### Helper lemmas -/

/-- `ratAdd` is ordinary addition on `ℚ`. -/
theorem ratAdd_eq_add (a b : ℚ) : ratAdd a b = a + b := by
  have ha : ((a.den : ℚ)) ≠ 0 := by
    exact_mod_cast a.den_nz
  have hb : ((b.den : ℚ)) ≠ 0 := by
    exact_mod_cast b.den_nz
  conv_rhs => rw [← Rat.num_div_den a, ← Rat.num_div_den b, div_add_div _ _ ha hb]
  rw [ratAdd, Rat.mkRat_eq_div]
  push_cast
  ring_nf

/-- `ratMul` is ordinary multiplication on `ℚ`. -/
theorem ratMul_eq_mul (a b : ℚ) : ratMul a b = a * b := by
  conv_rhs => rw [← Rat.num_div_den a, ← Rat.num_div_den b, div_mul_div_comm]
  rw [ratMul, Rat.mkRat_eq_div]
  push_cast
  ring_nf

/-- The caps trigger is the literal quotient comparison of the source:
`mkRat` agrees with rational division here. -/
theorem capsCond_eq_div (content : List Char) :
    capsCond content = true ↔
      (0 < letterCount content ∧
        (1 : ℚ)/2 < (capsCount content : ℚ) / (letterCount content : ℚ)) := by
  rw [capsCond]
  simp only [decide_eq_true_eq, Rat.mkRat_eq_div]
  push_cast
  tauto

/-- The scoring fold never goes below its accumulator. -/
theorem maxMatch_foldl_init_le (ps : List (List Char × ℚ)) (t : List Char) (a : ℚ) :
    a ≤ ps.foldl (fun acc pw => if hasSubstr pw.1 t then max acc pw.2 else acc) a := by
  induction ps generalizing a with
  | nil => exact le_refl a
  | cons pw ps ih =>
    refine le_trans ?_ (ih _)
    by_cases h : hasSubstr pw.1 t <;> simp [h, le_max_left]

/-- The table score is nonnegative. -/
theorem maxMatchWeight_nonneg (ps : List (List Char × ℚ)) (t : List Char) :
    0 ≤ maxMatchWeight ps t :=
  maxMatch_foldl_init_le ps t 0

/-- The table score is an upper bound on the weight of every matching phrase. -/
theorem maxMatch_foldl_le (ps : List (List Char × ℚ)) (t : List Char) (a : ℚ)
    (pat : List Char) (w : ℚ) (hmem : (pat, w) ∈ ps) (hmatch : hasSubstr pat t = true) :
    w ≤ ps.foldl (fun acc pw => if hasSubstr pw.1 t then max acc pw.2 else acc) a := by
  induction ps generalizing a with
  | nil => cases hmem
  | cons pw ps ih =>
    rcases List.mem_cons.mp hmem with h | h
    · subst h
      refine le_trans ?_ (maxMatch_foldl_init_le ps t _)
      simp [hmatch]
    · exact ih _ h

/-- Upper-bound form of `maxMatch_foldl_le` for the score itself. -/
theorem maxMatchWeight_le (ps : List (List Char × ℚ)) (t : List Char)
    (pat : List Char) (w : ℚ) (hmem : (pat, w) ∈ ps) (hmatch : hasSubstr pat t = true) :
    w ≤ maxMatchWeight ps t :=
  maxMatch_foldl_le ps t 0 pat w hmem hmatch

/-- The scoring fold returns its accumulator or the weight of some matching
phrase. -/
theorem maxMatch_foldl_cases (ps : List (List Char × ℚ)) (t : List Char) (a : ℚ) :
    ps.foldl (fun acc pw => if hasSubstr pw.1 t then max acc pw.2 else acc) a = a ∨
      ∃ pw ∈ ps, hasSubstr pw.1 t = true ∧
        ps.foldl (fun acc pw => if hasSubstr pw.1 t then max acc pw.2 else acc) a = pw.2 := by
  induction ps generalizing a with
  | nil => exact Or.inl rfl
  | cons pw ps ih =>
    rw [List.foldl_cons]
    rcases ih (if hasSubstr pw.1 t then max a pw.2 else a) with h | h
    · by_cases hm : hasSubstr pw.1 t
      · rcases max_cases a pw.2 with ⟨hmax, _⟩ | ⟨hmax, _⟩
        · left
          rw [h]
          simp [hm, hmax]
        · right
          refine ⟨pw, List.mem_cons_self pw ps, hm, ?_⟩
          rw [h]
          simp [hm, hmax]
      · left
        rw [h]
        simp [hm]
    · obtain ⟨q, hq, hqm, hqe⟩ := h
      exact Or.inr ⟨q, List.mem_cons_of_mem pw hq, hqm, hqe⟩

/-- A nonzero table score is attained by a matching phrase of the table. -/
theorem maxMatchWeight_attained (ps : List (List Char × ℚ)) (t : List Char)
    (h : maxMatchWeight ps t ≠ 0) :
    ∃ pw ∈ ps, hasSubstr pw.1 t = true ∧ maxMatchWeight ps t = pw.2 := by
  rcases maxMatch_foldl_cases ps t 0 with h0 | h0
  · exact absurd h0 h
  · exact h0

/-- With no matching phrase the table score is zero. -/
theorem maxMatchWeight_no_match (ps : List (List Char × ℚ)) (t : List Char)
    (h : ∀ pw ∈ ps, hasSubstr pw.1 t = false) : maxMatchWeight ps t = 0 := by
  rw [maxMatchWeight]
  induction ps with
  | nil => rfl
  | cons pw ps ih =>
    have hpw := h pw (List.mem_cons_self pw ps)
    simp only [List.foldl_cons, hpw, if_false, Bool.false_eq_true]
    exact ih (fun q hq => h q (List.mem_cons_of_mem pw hq))

/-- `Char.ofNat` below the surrogate range preserves the code point. -/
theorem toNat_ofNat_of_lt {n : Nat} (h : n < 55296) : (Char.ofNat n).toNat = n := by
  rw [Char.ofNat, dif_pos (Or.inl h)]
  rfl

/-- Character equality is code-point equality. -/
theorem char_eq_iff_toNat {a b : Char} : a = b ↔ a.toNat = b.toNat := by
  constructor
  · intro h
    rw [h]
  · intro h
    exact Char.ext (UInt32.toNat.inj h)

/-- Character order is code-point order. -/
theorem char_le_iff_toNat {a b : Char} : a ≤ b ↔ a.toNat ≤ b.toNat := by
  rw [Char.le_def, UInt32.le_def]
  exact BitVec.le_def

/-- A character with code point at least 65 is not whitespace. -/
theorem isWsChar_false_of_ge {c : Char} (h : 65 ≤ c.toNat) : isWsChar c = false := by
  rw [isWsChar]
  apply decide_eq_false
  intro hor
  rcases hor with h' | h' | h' | h' | h' | h' <;>
    (rw [char_eq_iff_toNat] at h'; rw [h'] at h; exact absurd h (by decide))

/-- Lower-casing preserves whitespace-ness. -/
theorem isWsChar_toLowerAscii (c : Char) : isWsChar (toLowerAscii c) = isWsChar c := by
  rw [toLowerAscii]
  by_cases h : 'A' ≤ c ∧ c ≤ 'Z'
  · rw [if_pos h]
    have h1 : 65 ≤ c.toNat := char_le_iff_toNat.mp h.1
    have h2 : c.toNat ≤ 90 := char_le_iff_toNat.mp h.2
    have hv : (Char.ofNat (c.toNat + 32)).toNat = c.toNat + 32 :=
      toNat_ofNat_of_lt (by omega)
    rw [isWsChar_false_of_ge (by omega), isWsChar_false_of_ge (by omega)]
  · rw [if_neg h]

/-- Lower-casing commutes with whitespace collapsing. -/
theorem collapseWs_map_toLower (l : List Char) :
    collapseWs (l.map toLowerAscii) = (collapseWs l).map toLowerAscii := by
  have hsp : toLowerAscii ' ' = ' ' := by decide
  induction l with
  | nil => rfl
  | cons c rest ih =>
    cases rest with
    | nil =>
      by_cases h : isWsChar c = true <;>
        simp [collapseWs, isWsChar_toLowerAscii, h, hsp]
    | cons d rest2 =>
      by_cases hc : isWsChar c = true <;> by_cases hd : isWsChar d = true <;>
        simpa [collapseWs, isWsChar_toLowerAscii, hc, hd, hsp] using ih

/-- The keyword stage always reports success. -/
theorem keywordStage_success (content : List Char) :
    (keywordStage content).success = true := by
  rw [keywordStage]
  split
  · rfl
  · split
    · rfl
    · split <;> rfl

/-- The caps override never touches `success` or `error_message`. -/
theorem capsOverride_success (content : List Char) (r : ClassificationResult) :
    (capsOverride content r).success = r.success := by
  rw [capsOverride]
  split <;> rfl

/-- The punctuation override never touches `success` or `error_message`. -/
theorem punctOverride_success (content : List Char) (r : ClassificationResult) :
    (punctOverride content r).success = r.success := by
  rw [punctOverride]
  split <;> rfl

/-- The heuristic classifier always reports success. -/
theorem classify_with_heuristics_success (content : List Char) :
    (classify_with_heuristics content).success = true := by
  rw [classify_with_heuristics, punctOverride_success, capsOverride_success,
    keywordStage_success]

/-- Weight range of the productive table. -/
theorem productive_weight_range :
    ∀ pw ∈ productive_patterns, mkRat 7 10 ≤ pw.2 ∧ pw.2 ≤ mkRat 9 10 := by
  decide

/-- Weight range of the unproductive table. -/
theorem unproductive_weight_range :
    ∀ pw ∈ unproductive_patterns, mkRat 6 10 ≤ pw.2 ∧ pw.2 ≤ mkRat 9 10 := by
  decide

/-- Confidence bounds of the keyword stage: always within [0.5, 0.9]. -/
theorem keywordStage_conf_bounds (content : List Char) :
    mkRat 1 2 ≤ (keywordStage content).confidence ∧
      (keywordStage content).confidence ≤ mkRat 9 10 := by
  rw [keywordStage]
  have hu0 : 0 ≤ maxMatchWeight unproductive_patterns (heuristicNormalize content) :=
    maxMatchWeight_nonneg _ _
  have hp0 : 0 ≤ maxMatchWeight productive_patterns (heuristicNormalize content) :=
    maxMatchWeight_nonneg _ _
  split
  · next hlt =>
    obtain ⟨pw, hmem, hm, heq⟩ :=
      maxMatchWeight_attained productive_patterns (heuristicNormalize content)
        (by exact ne_of_gt (lt_of_le_of_lt hu0 hlt))
    have hr := productive_weight_range pw hmem
    constructor
    · exact le_trans (by decide) (heq ▸ hr.1)
    · exact heq ▸ hr.2
  · split
    · next hlt =>
      obtain ⟨pw, hmem, hm, heq⟩ :=
        maxMatchWeight_attained unproductive_patterns (heuristicNormalize content)
          (by exact ne_of_gt (lt_of_le_of_lt hp0 hlt))
      have hr := unproductive_weight_range pw hmem
      constructor
      · exact le_trans (by decide) (heq ▸ hr.1)
      · exact heq ▸ hr.2
    · split
      · exact ⟨by decide, by decide⟩
      · exact ⟨by decide, by decide⟩

/-- `count_keywords` counts the distinct matching keywords. -/
theorem count_keywords_eq_filter (content : List Char) (ks : List (List Char)) :
    count_keywords content ks = (ks.filter (fun k => hasSubstr k content)).length := by
  rw [count_keywords]
  suffices h : ∀ (l : List (List Char)) (a : Nat),
      l.foldl (fun c k => if hasSubstr k content then c + 1 else c) a =
        a + (l.filter (fun k => hasSubstr k content)).length by
    simpa using h ks 0
  intro l
  induction l with
  | nil => intro a; simp
  | cons k l ih =>
    intro a
    by_cases hk : hasSubstr k content = true
    · simp [hk, ih]
      omega
    · simp [hk, ih]

/-- The caps override keeps confidence within [0.5, 0.9]. -/
theorem capsOverride_conf_bounds (content : List Char) (r : ClassificationResult)
    (h1 : mkRat 1 2 ≤ r.confidence) (h2 : r.confidence ≤ mkRat 9 10) :
    mkRat 1 2 ≤ (capsOverride content r).confidence ∧
      (capsOverride content r).confidence ≤ mkRat 9 10 := by
  rw [capsOverride]
  split
  · exact ⟨le_trans h1 (le_max_left _ _), max_le h2 (by decide)⟩
  · exact ⟨h1, h2⟩

/-- The punctuation override keeps confidence within [0.5, 0.9]. -/
theorem punctOverride_conf_bounds (content : List Char) (r : ClassificationResult)
    (h1 : mkRat 1 2 ≤ r.confidence) (h2 : r.confidence ≤ mkRat 9 10) :
    mkRat 1 2 ≤ (punctOverride content r).confidence ∧
      (punctOverride content r).confidence ≤ mkRat 9 10 := by
  rw [punctOverride]
  split
  · exact ⟨le_trans h1 (le_max_left _ _), max_le h2 (by decide)⟩
  · exact ⟨h1, h2⟩

/-- Neither override ever turns a verdict productive. -/
theorem overrides_productive_mono (content : List Char) (r : ClassificationResult)
    (h : (punctOverride content (capsOverride content r)).is_productive = true) :
    r.is_productive = true := by
  rw [punctOverride] at h
  split at h
  · cases h
  · rw [capsOverride] at h
    split at h
    · cases h
    · exact h

/-- The application-hint block preserves the verdict. -/
theorem appAdjust_productive (ctx : ClassificationContext) (r : ClassificationResult) :
    (appAdjust ctx r).is_productive = r.is_productive := by
  rw [appAdjust]
  split
  · split <;> rfl
  · split
    · split <;> rfl
    · rfl

/-- The category block preserves the verdict. -/
theorem categoryAdjust_productive (ctx : ClassificationContext) (r : ClassificationResult) :
    (categoryAdjust ctx r).is_productive = r.is_productive := by
  rw [categoryAdjust]
  split
  · split <;> rfl
  · split <;> rfl
  · split <;> rfl
  · rfl

/-- The length block preserves the verdict. -/
theorem lengthAdjust_productive (ctx : ClassificationContext) (r : ClassificationResult) :
    (lengthAdjust ctx r).is_productive = r.is_productive := by
  rw [lengthAdjust]
  split
  · rfl
  · split
    · split <;> rfl
    · rfl

/-- The application-hint block only ever appends to the reason. -/
theorem appAdjust_reason (ctx : ClassificationContext) (r : ClassificationResult) :
    ∃ t, (appAdjust ctx r).reason = r.reason ++ t := by
  rw [appAdjust]
  split
  · split
    · exact ⟨"_linkedin_boost", rfl⟩
    · exact ⟨"", by simp⟩
  · split
    · split
      · exact ⟨"_tiktok_penalty", rfl⟩
      · exact ⟨"", by simp⟩
    · exact ⟨"", by simp⟩

/-- The category block only ever appends to the reason. -/
theorem categoryAdjust_reason (ctx : ClassificationContext) (r : ClassificationResult) :
    ∃ t, (categoryAdjust ctx r).reason = r.reason ++ t := by
  rw [categoryAdjust]
  split
  · split
    · exact ⟨"_educational_boost", rfl⟩
    · exact ⟨"", by simp⟩
  · split
    · exact ⟨"_entertainment_penalty", rfl⟩
    · exact ⟨"", by simp⟩
  · split
    · exact ⟨"_commercial_penalty", rfl⟩
    · exact ⟨"", by simp⟩
  · exact ⟨"", by simp⟩

/-- The length block only ever appends to the reason. -/
theorem lengthAdjust_reason (ctx : ClassificationContext) (r : ClassificationResult) :
    ∃ t, (lengthAdjust ctx r).reason = r.reason ++ t := by
  rw [lengthAdjust]
  split
  · exact ⟨"_short_content", rfl⟩
  · split
    · split
      · exact ⟨"_long_content_boost", rfl⟩
      · exact ⟨"", by simp⟩
    · exact ⟨"", by simp⟩

/-- A clamped boost `min 1 (x + w)` stays in [0, 1] when `x` does and `w ≥ 0`. -/
theorem clamped_boost_bounds {x w : ℚ} (h0 : 0 ≤ x) (hw : 0 ≤ w) :
    0 ≤ min 1 (ratAdd x w) ∧ min 1 (ratAdd x w) ≤ 1 := by
  rw [ratAdd_eq_add]
  exact ⟨le_min (by norm_num) (by linarith), min_le_left _ _⟩

/-- The application-hint block keeps confidence within [0, 1]. -/
theorem appAdjust_conf_bounds (ctx : ClassificationContext) (r : ClassificationResult)
    (h0 : 0 ≤ r.confidence) (h1 : r.confidence ≤ 1) :
    0 ≤ (appAdjust ctx r).confidence ∧ (appAdjust ctx r).confidence ≤ 1 := by
  rw [appAdjust]
  split
  · split
    · exact clamped_boost_bounds h0 (by decide)
    · exact ⟨h0, h1⟩
  · split
    · split
      · exact clamped_boost_bounds h0 (by decide)
      · exact ⟨h0, h1⟩
    · exact ⟨h0, h1⟩

/-- The category block keeps confidence within [0, 1]. -/
theorem categoryAdjust_conf_bounds (ctx : ClassificationContext) (r : ClassificationResult)
    (h0 : 0 ≤ r.confidence) (h1 : r.confidence ≤ 1) :
    0 ≤ (categoryAdjust ctx r).confidence ∧ (categoryAdjust ctx r).confidence ≤ 1 := by
  rw [categoryAdjust]
  split
  · split
    · exact clamped_boost_bounds h0 (by decide)
    · exact ⟨h0, h1⟩
  · split
    · exact clamped_boost_bounds h0 (by decide)
    · exact ⟨h0, h1⟩
  · split
    · exact clamped_boost_bounds h0 (by decide)
    · exact ⟨h0, h1⟩
  · exact ⟨h0, h1⟩

/-- The length block keeps confidence within [0, 1]. -/
theorem lengthAdjust_conf_bounds (ctx : ClassificationContext) (r : ClassificationResult)
    (h0 : 0 ≤ r.confidence) (h1 : r.confidence ≤ 1) :
    0 ≤ (lengthAdjust ctx r).confidence ∧ (lengthAdjust ctx r).confidence ≤ 1 := by
  rw [lengthAdjust]
  have h8a : (0 : ℚ) ≤ mkRat 8 10 := by decide
  have h8b : mkRat 8 10 ≤ 1 := by decide
  split
  · rw [ratMul_eq_mul]
    constructor
    · exact mul_nonneg h0 h8a
    · exact mul_le_one₀ h1 h8a h8b
  · split
    · split
      · exact clamped_boost_bounds h0 (by decide)
      · exact ⟨h0, h1⟩
    · exact ⟨h0, h1⟩

/-! ### Claim theorems -/

/-- C1: for every input text, the heuristic classifier scores each pattern
table as the maximum severity weight over the phrases occurring as
substrings of the normalized (lower-cased, whitespace-collapsed) text, and
decides: productive max strictly greater gives productive with that
confidence and reason "educational_keywords"; unproductive max strictly
greater gives unproductive with that confidence and reason
"unproductive_keywords"; an equal positive tie gives productive with
confidence 0.5 and reason "mixed_content"; no match at all gives productive
with confidence 0.6 and reason "neutral_content". In particular, the text
"tutorial" classifies productive with confidence 0.9 and reason
"educational_keywords". -/
theorem C1_keyword_scoring_decision (content norm : List Char) (p u : ℚ)
    (hnorm : norm = heuristicNormalize content)
    (hp : p = maxMatchWeight productive_patterns norm)
    (hu : u = maxMatchWeight unproductive_patterns norm) :
    (∀ pat w, (pat, w) ∈ productive_patterns → hasSubstr pat norm = true → w ≤ p) ∧
    (∀ pat w, (pat, w) ∈ unproductive_patterns → hasSubstr pat norm = true → w ≤ u) ∧
    (p ≠ 0 → ∃ pw ∈ productive_patterns, hasSubstr pw.1 norm = true ∧ p = pw.2) ∧
    (u ≠ 0 → ∃ pw ∈ unproductive_patterns, hasSubstr pw.1 norm = true ∧ u = pw.2) ∧
    (u < p → keywordStage content =
      { is_productive := true, confidence := p, reason := "educational_keywords",
        success := true, error_message := "" }) ∧
    (p < u → keywordStage content =
      { is_productive := false, confidence := u, reason := "unproductive_keywords",
        success := true, error_message := "" }) ∧
    (p = u → 0 < p → keywordStage content =
      { is_productive := true, confidence := mkRat 1 2, reason := "mixed_content",
        success := true, error_message := "" }) ∧
    ((∀ pw ∈ productive_patterns, hasSubstr pw.1 norm = false) →
      (∀ pw ∈ unproductive_patterns, hasSubstr pw.1 norm = false) →
      keywordStage content =
        { is_productive := true, confidence := mkRat 6 10, reason := "neutral_content",
          success := true, error_message := "" }) ∧
    classify_with_heuristics "tutorial".toList =
      { is_productive := true, confidence := mkRat 9 10,
        reason := "educational_keywords", success := true, error_message := "" } := by
  subst hnorm
  subst hp
  subst hu
  refine ⟨?_, ?_, ?_, ?_, ?_, ?_, ?_, ?_, by decide⟩
  · intro pat w hmem hm
    exact maxMatchWeight_le _ _ pat w hmem hm
  · intro pat w hmem hm
    exact maxMatchWeight_le _ _ pat w hmem hm
  · intro h
    exact maxMatchWeight_attained _ _ h |>.imp fun pw hpw => ⟨hpw.1, hpw.2.1, hpw.2.2⟩
  · intro h
    exact maxMatchWeight_attained _ _ h |>.imp fun pw hpw => ⟨hpw.1, hpw.2.1, hpw.2.2⟩
  · intro h
    simp only [keywordStage]
    rw [if_pos h]
  · intro h
    simp only [keywordStage]
    rw [if_neg (lt_asymm h), if_pos h]
  · intro heq hpos
    simp only [keywordStage]
    rw [if_neg (heq ▸ lt_irrefl _), if_neg (heq ▸ lt_irrefl _),
      if_pos ⟨heq ▸ hpos, hpos⟩]
  · intro h1 h2
    have hp0 := maxMatchWeight_no_match productive_patterns
      (heuristicNormalize content) h1
    have hu0 := maxMatchWeight_no_match unproductive_patterns
      (heuristicNormalize content) h2
    simp [keywordStage, hp0, hu0]

/-- Witness for C1 at the concrete input "tutorial": the decision branch
hypotheses hold there and give the educational verdict, and the matched
phrase "tutorial" bounds the productive score from below. -/
theorem C1_keyword_scoring_decision_witness :
    keywordStage "tutorial".toList =
      { is_productive := true,
        confidence := maxMatchWeight productive_patterns
          (heuristicNormalize "tutorial".toList),
        reason := "educational_keywords", success := true, error_message := "" } ∧
    mkRat 9 10 ≤ maxMatchWeight productive_patterns
      (heuristicNormalize "tutorial".toList) := by
  have h := C1_keyword_scoring_decision "tutorial".toList
    (heuristicNormalize "tutorial".toList)
    (maxMatchWeight productive_patterns (heuristicNormalize "tutorial".toList))
    (maxMatchWeight unproductive_patterns (heuristicNormalize "tutorial".toList))
    rfl rfl rfl
  refine ⟨h.2.2.2.2.1 (by decide), ?_⟩
  exact h.1 "tutorial".toList (mkRat 9 10) (by decide) (by decide)

/-- C2 counterexample: the failure results of `classify_content` carry the
capitalized messages "Model not loaded" / "Empty content", not the
lower-case strings quoted in the claim (neither in `error_message` nor in
`reason`, which stays empty). -/
theorem C2_failure_reasons_counterexample :
    (classify_content false "a".toList).success = false ∧
    (classify_content false "a".toList).error_message = "Model not loaded" ∧
    ¬ (classify_content false "a".toList).error_message = "model not loaded" ∧
    ¬ (classify_content false "a".toList).reason = "model not loaded" ∧
    (classify_content true []).success = false ∧
    (classify_content true []).error_message = "Empty content" ∧
    ¬ (classify_content true []).error_message = "empty content" := by
  decide

/-- C2 (amended): `classify_content` fails exactly when the model is not
loaded or the text is empty; when not loaded it fails with message
"Model not loaded"; when loaded with empty text it fails with message
"Empty content" and performs no scoring; otherwise (fallback mode,
non-empty text) it returns the heuristic result, which succeeds. -/
theorem C2_failure_conditions (loaded : Bool) (content : List Char) :
    ((classify_content loaded content).success = false ↔
      loaded = false ∨ content = []) ∧
    (loaded = false → classify_content loaded content =
      failureResult "Model not loaded") ∧
    (loaded = true → content = [] → classify_content loaded content =
      failureResult "Empty content") ∧
    (loaded = true → content ≠ [] →
      classify_content loaded content = classify_with_heuristics content ∧
      (classify_content loaded content).success = true) := by
  cases loaded with
  | false => simp [classify_content, failureResult]
  | true =>
    cases content with
    | nil => simp [classify_content, failureResult]
    | cons c cs =>
      have hs := classify_with_heuristics_success (c :: cs)
      simp [classify_content, hs]

/-- Witness for C2 at concrete inputs: an unloaded call and a loaded empty
call fail with the code's messages, and a loaded non-empty call succeeds. -/
theorem C2_failure_conditions_witness :
    classify_content false "a".toList = failureResult "Model not loaded" ∧
    classify_content true [] = failureResult "Empty content" ∧
    (classify_content true "a".toList).success = true := by
  refine ⟨(C2_failure_conditions false "a".toList).2.1 rfl,
    (C2_failure_conditions true []).2.2.1 rfl rfl,
    ((C2_failure_conditions true "a".toList).2.2.2 rfl (by decide)).2⟩

/-- C3: the surface-statistics overrides run after the keyword decision and
only ever push the verdict toward unproductive. The caps override fires
exactly when over half of the alphabetic characters are upper-case, forcing
unproductive with confidence max(current, 0.7) and reason "excessive_caps";
the punctuation override fires exactly when the original text has more than
three `!` or more than three `?`, forcing unproductive with confidence
max(current, 0.6) and reason "excessive_punctuation", overwriting the
reason tag. In particular, "ABCD e" (80% upper-case, no keyword matches)
classifies unproductive with reason "excessive_caps". -/
theorem C3_surface_overrides (content : List Char) (r : ClassificationResult) :
    (capsCond content = true → capsOverride content r =
      { r with is_productive := false, confidence := max r.confidence (mkRat 7 10),
               reason := "excessive_caps" }) ∧
    (capsCond content = false → capsOverride content r = r) ∧
    (punctCond content = true → punctOverride content r =
      { r with is_productive := false, confidence := max r.confidence (mkRat 6 10),
               reason := "excessive_punctuation" }) ∧
    (punctCond content = false → punctOverride content r = r) ∧
    ((punctOverride content (capsOverride content r)).is_productive = true →
      r.is_productive = true) ∧
    (capsCond content = true ↔
      0 < letterCount content ∧
        (1 : ℚ)/2 < (capsCount content : ℚ) / (letterCount content : ℚ)) ∧
    (punctCond content = true ↔ 3 < content.count '!' ∨ 3 < content.count '?') ∧
    classify_with_heuristics "ABCD e".toList =
      { is_productive := false, confidence := mkRat 7 10, reason := "excessive_caps",
        success := true, error_message := "" } := by
  refine ⟨?_, ?_, ?_, ?_, overrides_productive_mono content r,
    capsCond_eq_div content, ?_, by decide⟩
  · intro h
    rw [capsOverride, if_pos h]
  · intro h
    rw [capsOverride, if_neg]
    simp [h]
  · intro h
    rw [punctOverride, if_pos h]
  · intro h
    rw [punctOverride, if_neg]
    simp [h]
  · rw [punctCond]
    exact decide_eq_true_iff

/-- Witness for C3 at concrete inputs: the caps override fires on "AB",
the punctuation override fires on "a!!!!", and neither fires on "ab". -/
theorem C3_surface_overrides_witness :
    capsOverride "AB".toList (keywordStage "AB".toList) =
      { keywordStage "AB".toList with
        is_productive := false
        confidence := max (keywordStage "AB".toList).confidence (mkRat 7 10)
        reason := "excessive_caps" } ∧
    punctOverride "a!!!!".toList (keywordStage "a!!!!".toList) =
      { keywordStage "a!!!!".toList with
        is_productive := false
        confidence := max (keywordStage "a!!!!".toList).confidence (mkRat 6 10)
        reason := "excessive_punctuation" } ∧
    capsOverride "ab".toList (keywordStage "ab".toList) = keywordStage "ab".toList := by
  refine ⟨(C3_surface_overrides "AB".toList (keywordStage "AB".toList)).1 (by decide),
    (C3_surface_overrides "a!!!!".toList (keywordStage "a!!!!".toList)).2.2.1 (by decide),
    (C3_surface_overrides "ab".toList (keywordStage "ab".toList)).2.1 (by decide)⟩

/-- C10: for every input string, including the empty one, the standalone
heuristic classifier reports success with a confidence in [0.5, 0.9]; it
has no failure path of its own. -/
theorem C10_heuristics_total (content : List Char) :
    (classify_with_heuristics content).success = true ∧
    mkRat 1 2 ≤ (classify_with_heuristics content).confidence ∧
    (classify_with_heuristics content).confidence ≤ mkRat 9 10 := by
  refine ⟨classify_with_heuristics_success content, ?_⟩
  have hk := keywordStage_conf_bounds content
  have hc := capsOverride_conf_bounds content _ hk.1 hk.2
  have hp := punctOverride_conf_bounds content _ hc.1 hc.2
  simpa [classify_with_heuristics] using hp

/-- C4: context adjustment applies the application-hint, category and
length rules in this fixed order; confidence stays clamped within [0, 1];
every rule appends a suffix to the reason instead of replacing it; no rule
flips the verdict. A context with category Educational on a productive base
result of confidence 0.5 (no application hint, mid-range length) yields
confidence 0.65 with the "_educational_boost" suffix appended. -/
theorem C4_context_adjustments (r : ClassificationResult) (ctx : ClassificationContext) :
    apply_context_adjustments r ctx =
      lengthAdjust ctx (categoryAdjust ctx (appAdjust ctx r)) ∧
    (apply_context_adjustments r ctx).is_productive = r.is_productive ∧
    (∃ t, (apply_context_adjustments r ctx).reason = r.reason ++ t) ∧
    (0 ≤ r.confidence → r.confidence ≤ 1 →
      0 ≤ (apply_context_adjustments r ctx).confidence ∧
        (apply_context_adjustments r ctx).confidence ≤ 1) ∧
    (r.is_productive = true → r.confidence = mkRat 1 2 →
      ctx.category = ContentCategory.EDUCATIONAL →
      hasSubstr "linkedin".toList ctx.app_package = false →
      hasSubstr "tiktok".toList ctx.app_package = false →
      50 ≤ ctx.content_length → ctx.content_length ≤ 500 →
      (apply_context_adjustments r ctx).confidence = mkRat 65 100 ∧
        (apply_context_adjustments r ctx).reason =
          r.reason ++ "_educational_boost") := by
  refine ⟨rfl, ?_, ?_, ?_, ?_⟩
  · rw [apply_context_adjustments, lengthAdjust_productive, categoryAdjust_productive,
      appAdjust_productive]
  · obtain ⟨t1, h1⟩ := appAdjust_reason ctx r
    obtain ⟨t2, h2⟩ := categoryAdjust_reason ctx (appAdjust ctx r)
    obtain ⟨t3, h3⟩ := lengthAdjust_reason ctx (categoryAdjust ctx (appAdjust ctx r))
    refine ⟨t1 ++ t2 ++ t3, ?_⟩
    rw [apply_context_adjustments, h3, h2, h1]
    simp [String.append_assoc]
  · intro h0 h1
    have b1 := appAdjust_conf_bounds ctx r h0 h1
    have b2 := categoryAdjust_conf_bounds ctx (appAdjust ctx r) b1.1 b1.2
    have b3 := lengthAdjust_conf_bounds ctx (categoryAdjust ctx (appAdjust ctx r)) b2.1 b2.2
    exact b3
  · intro hprod hconf hcat hlink htik hlen1 hlen2
    have e1 : appAdjust ctx r = r := by
      rw [appAdjust,
        if_neg (show ¬(hasSubstr "linkedin".toList ctx.app_package = true) by
          rw [hlink]; decide),
        if_neg (show ¬(hasSubstr "tiktok".toList ctx.app_package = true) by
          rw [htik]; decide)]
    have e2 : categoryAdjust ctx r =
        { r with confidence := min 1 (ratAdd r.confidence (mkRat 15 100)),
                 reason := r.reason ++ "_educational_boost" } := by
      rw [categoryAdjust, hcat]
      simp [hprod]
    have e3 : ∀ s : ClassificationResult, lengthAdjust ctx s = s := by
      intro s
      rw [lengthAdjust, if_neg (not_lt.mpr hlen1), if_neg (not_lt.mpr hlen2)]
    rw [apply_context_adjustments, e1, e2, e3]
    refine ⟨?_, rfl⟩
    show min 1 (ratAdd r.confidence (mkRat 15 100)) = mkRat 65 100
    rw [hconf]
    decide

/-- Witness for C4 at the spec's example: base productive result of
confidence 0.5 with an Educational context of length 100 gets confidence
0.65 and the "_educational_boost" suffix, with confidence still in [0, 1]. -/
theorem C4_context_adjustments_witness :
    (apply_context_adjustments sample_base_result sample_edu_context).confidence =
      mkRat 65 100 ∧
    (apply_context_adjustments sample_base_result sample_edu_context).reason =
      "neutral_content" ++ "_educational_boost" ∧
    (apply_context_adjustments sample_base_result sample_edu_context).is_productive =
      true ∧
    0 ≤ (apply_context_adjustments sample_base_result sample_edu_context).confidence ∧
    (apply_context_adjustments sample_base_result sample_edu_context).confidence ≤ 1 := by
  have h := C4_context_adjustments sample_base_result sample_edu_context
  have hex := h.2.2.2.2 rfl rfl rfl (by decide) (by decide) (by decide) (by decide)
  have hb := h.2.2.2.1 (by decide) (by decide)
  exact ⟨hex.1, hex.2, h.2.1, hb.1, hb.2⟩

/-- C5 counterexample: on the input " A" the heuristic normalization keeps
the leading space (it neither trims nor caps), while
`prepare_content_for_analysis` trims it, so the two normalizations differ
modulo casing. -/
theorem C5_normalizations_counterexample :
    heuristicNormalize " A".toList = " a".toList ∧
    (prepare_content_for_analysis " A".toList).map toLowerAscii = "a".toList ∧
    ¬ heuristicNormalize " A".toList =
        (prepare_content_for_analysis " A".toList).map toLowerAscii := by
  decide

/-- C5 (amended): the normalization inside `classify_with_heuristics`
lower-cases and collapses whitespace but neither trims nor caps the length;
`prepare_content_for_analysis` collapses, trims and caps at 500 characters
(appending "...") without lower-casing. Hence the two do not agree modulo
casing on every input (see the counterexample), but they do agree on every
input whose collapsed form is already trimmed and at most 500 characters
long — a sufficient condition for agreement, not claimed to be necessary. -/
theorem C5_normalizations (content : List Char)
    (h1 : trimWs (collapseWs content) = collapseWs content)
    (h2 : (collapseWs content).length ≤ 500) :
    heuristicNormalize content =
      (prepare_content_for_analysis content).map toLowerAscii := by
  rw [heuristicNormalize, collapseWs_map_toLower]
  simp only [prepare_content_for_analysis]
  rw [h1, if_neg (not_lt.mpr h2)]

/-- Witness for C5 at the concrete input "ab c": the collapsed form is
trimmed and short, and the two normalizations agree modulo casing. -/
theorem C5_normalizations_witness :
    trimWs (collapseWs "ab c".toList) = collapseWs "ab c".toList ∧
    (collapseWs "ab c".toList).length ≤ 500 ∧
    heuristicNormalize "ab c".toList =
      (prepare_content_for_analysis "ab c".toList).map toLowerAscii :=
  ⟨by decide, by decide, C5_normalizations "ab c".toList (by decide) (by decide)⟩

/-- C6 counterexample: in fallback mode an empty but readable artifact file
is accepted — `load_model` returns true and marks the model loaded, against
the claim's "non-empty and readable". -/
theorem C6_load_model_counterexample :
    load_model (fun _ => some []) "model.gguf".toList false = (true, true) ∧
    (fun _ => (some [] : Option (List Nat))) "model.gguf".toList = some [] := by
  exact ⟨rfl, rfl⟩

/-- C6 (amended): in fallback mode `load_model` returns true if and only if
the artifact file is readable (it opens; no emptiness or content check is
made), and exactly then marks the model Loaded; on failure it returns false
and leaves the load state unchanged, so a manager that was Unloaded stays
Unloaded. -/
theorem C6_load_model_fallback (fs : FileSystem) (path : List Char) (loaded : Bool) :
    ((load_model fs path loaded).1 = true ↔ (fs path).isSome = true) ∧
    ((load_model fs path loaded).1 = true → (load_model fs path loaded).2 = true) ∧
    ((load_model fs path loaded).1 = false → (load_model fs path loaded).2 = loaded) := by
  cases h : fs path <;> simp [load_model, h]

/-- Witness for C6 at concrete file systems: a missing file leaves an
unloaded manager unloaded, a readable file loads it. -/
theorem C6_load_model_fallback_witness :
    (load_model (fun _ => none) "m".toList false).2 = false ∧
    (load_model (fun _ => some [1]) "m".toList false).2 = true := by
  exact ⟨(C6_load_model_fallback (fun _ => none) "m".toList false).2.2 rfl,
    (C6_load_model_fallback (fun _ => some [1]) "m".toList false).2.1 rfl⟩

/-- C7: the validator accepts exactly the readable files of at least 1 KiB
whose first four bytes are the GGUF magic. A 500-byte file is rejected
regardless of its first bytes; a 1025-byte file starting with the magic is
accepted. -/
theorem C7_validate_model_file (fs : FileSystem) (path : List Char) :
    (validate_model_file fs path = true ↔
      ∃ bytes, fs path = some bytes ∧ 1024 ≤ bytes.length ∧
        bytes.take 4 = ggufMagic) ∧
    (∀ bytes, fs path = some bytes → bytes.length = 500 →
      validate_model_file fs path = false) ∧
    (∀ bytes, fs path = some bytes → bytes.length = 1025 →
      bytes.take 4 = ggufMagic → validate_model_file fs path = true) := by
  cases h : fs path with
  | none =>
    refine ⟨?_, ?_, ?_⟩
    · simp [validate_model_file, h]
    · intro b hb
      simp [h] at hb
    · intro b hb
      simp [h] at hb
  | some bytes =>
    have hval : validate_model_file fs path =
        (if bytes.length < 1024 then false
         else if bytes.take 4 = ggufMagic then true else false) := by
      simp only [validate_model_file, h]
    refine ⟨?_, ?_, ?_⟩
    · rw [hval]
      constructor
      · intro hv
        by_cases hlen : bytes.length < 1024
        · rw [if_pos hlen] at hv
          cases hv
        · rw [if_neg hlen] at hv
          by_cases hm : bytes.take 4 = ggufMagic
          · exact ⟨bytes, rfl, by omega, hm⟩
          · rw [if_neg hm] at hv
            cases hv
      · rintro ⟨b, hb, hblen, hbm⟩
        injection hb with hb'
        subst hb'
        rw [if_neg (by omega), if_pos hbm]
    · intro b hb hblen
      injection hb with hb'
      subst hb'
      rw [hval, if_pos (by omega)]
    · intro b hb hblen hbm
      injection hb with hb'
      subst hb'
      rw [hval, if_neg (by omega), if_pos hbm]

/-- Witness for C7 at concrete files: a 1025-byte GGUF-prefixed file is
accepted, a 500-byte file is rejected. -/
theorem C7_validate_model_file_witness :
    validate_model_file (fun _ => some (ggufMagic ++ List.replicate 1021 0)) [] = true ∧
    validate_model_file (fun _ => some (List.replicate 500 71)) [] = false := by
  have hlenA : (ggufMagic ++ List.replicate 1021 0).length = 1025 := by
    rw [List.length_append, List.length_replicate]
    decide
  have hlenB : (List.replicate 500 (71 : Nat)).length = 500 := by
    rw [List.length_replicate]
  constructor
  · exact (C7_validate_model_file (fun _ => some (ggufMagic ++ List.replicate 1021 0))
      []).2.2 _ rfl hlenA (by decide)
  · exact (C7_validate_model_file (fun _ => some (List.replicate 500 71))
      []).2.1 _ rfl hlenB

/-- C8: the category detector counts distinct matching phrases per keyword
set over the lower-cased text; the strictly highest count wins; a zero
maximum gives Unknown; a non-zero tie resolves in the order News,
Educational, Entertainment, Commercial — and whenever the maximum is
non-zero one of the four scores attains it, so the trailing Social default
never fires (the claim's "falls through to Social" case is empty). Text
matching two news phrases and one educational phrase yields News. -/
theorem C8_determine_category (content lower : List Char) (n e t c m : Nat)
    (hlower : lower = content.map toLowerAscii)
    (hn : n = count_keywords lower news_keywords)
    (he : e = count_keywords lower educational_keywords)
    (ht : t = count_keywords lower entertainment_keywords)
    (hc : c = count_keywords lower commercial_keywords)
    (hm : m = max (max n e) (max t c)) :
    (∀ ks, count_keywords lower ks = (ks.filter (fun k => hasSubstr k lower)).length) ∧
    (m = 0 → determine_category content = ContentCategory.UNKNOWN) ∧
    (m ≠ 0 → m = n → determine_category content = ContentCategory.NEWS) ∧
    (m ≠ 0 → m ≠ n → m = e →
      determine_category content = ContentCategory.EDUCATIONAL) ∧
    (m ≠ 0 → m ≠ n → m ≠ e → m = t →
      determine_category content = ContentCategory.ENTERTAINMENT) ∧
    (m ≠ 0 → m ≠ n → m ≠ e → m ≠ t → m = c →
      determine_category content = ContentCategory.COMMERCIAL) ∧
    (0 < m → m = n ∨ m = e ∨ m = t ∨ m = c) ∧
    determine_category "breaking news study".toList = ContentCategory.NEWS := by
  subst hlower
  subst hn
  subst he
  subst ht
  subst hc
  subst hm
  refine ⟨fun ks => count_keywords_eq_filter _ ks, ?_, ?_, ?_, ?_, ?_, ?_, by decide⟩
  · intro h0
    simp only [determine_category]
    rw [if_pos h0]
  · intro h0 hn'
    simp only [determine_category]
    rw [if_neg h0, if_pos hn']
  · intro h0 hn' he'
    simp only [determine_category]
    rw [if_neg h0, if_neg hn', if_pos he']
  · intro h0 hn' he' ht'
    simp only [determine_category]
    rw [if_neg h0, if_neg hn', if_neg he', if_pos ht']
  · intro h0 hn' he' ht' hc'
    simp only [determine_category]
    rw [if_neg h0, if_neg hn', if_neg he', if_neg ht', if_pos hc']
  · intro _
    rcases max_cases (max (count_keywords (content.map toLowerAscii) news_keywords)
        (count_keywords (content.map toLowerAscii) educational_keywords))
        (max (count_keywords (content.map toLowerAscii) entertainment_keywords)
        (count_keywords (content.map toLowerAscii) commercial_keywords)) with
      ⟨h1, _⟩ | ⟨h1, _⟩
    · rcases max_cases (count_keywords (content.map toLowerAscii) news_keywords)
          (count_keywords (content.map toLowerAscii) educational_keywords) with
        ⟨h2, _⟩ | ⟨h2, _⟩
      · exact Or.inl (h1.trans h2)
      · exact Or.inr (Or.inl (h1.trans h2))
    · rcases max_cases (count_keywords (content.map toLowerAscii) entertainment_keywords)
          (count_keywords (content.map toLowerAscii) commercial_keywords) with
        ⟨h2, _⟩ | ⟨h2, _⟩
      · exact Or.inr (Or.inr (Or.inl (h1.trans h2)))
      · exact Or.inr (Or.inr (Or.inr (h1.trans h2)))

/-- Witness for C8 at "breaking news study": the news score 2 beats the
educational score 1, and the ordered decision yields News. -/
theorem C8_determine_category_witness :
    determine_category "breaking news study".toList = ContentCategory.NEWS ∧
    count_keywords ("breaking news study".toList.map toLowerAscii) news_keywords = 2 ∧
    count_keywords ("breaking news study".toList.map toLowerAscii)
      educational_keywords = 1 := by
  have h := C8_determine_category "breaking news study".toList _ _ _ _ _ _
    rfl rfl rfl rfl rfl rfl
  exact ⟨h.2.2.1 (by decide) (by decide), by decide, by decide⟩

/-- C9 counterexample: the delivered progress sequence of a run is not
strictly increasing — progress 0.0 is delivered twice at the start (the
initial event and the first loop event) and 1.0 twice at the end. -/
theorem C9_progress_counterexample :
    chainHolds (fun a b => a < b)
      ((download_events true).map LoadProgress.progress) = false ∧
    ((download_events true).map LoadProgress.progress).take 2 = [0, 0] := by
  decide

/-- C9 (amended): within one acquisition run the delivered progress values
are non-decreasing (not strictly increasing) and lie in [0, 1], and the run
ends with exactly one terminal event, whose status is Loaded on success and
Error on failure. -/
theorem C9_progress_events (success : Bool) :
    chainHolds (fun a b => a ≤ b)
      ((download_events success).map LoadProgress.progress) = true ∧
    (∀ ev ∈ download_events success, 0 ≤ ev.progress ∧ ev.progress ≤ 1) ∧
    (download_events success).countP (fun ev => isTerminal ev.status) = 1 ∧
    (download_events success).getLast?.map LoadProgress.status =
      some (if success then LoadStatus.LOADED else LoadStatus.ERROR) := by
  cases success <;> exact ⟨by decide, by decide, by decide, by decide⟩

/-- Witness for C9 at a successful run: the chain of progress values is
non-decreasing and the initial event's progress lies in [0, 1]. -/
theorem C9_progress_events_witness :
    chainHolds (fun a b => a ≤ b)
      ((download_events true).map LoadProgress.progress) = true ∧
    (0 ≤ ({ status := LoadStatus.DOWNLOADING, progress := 0,
            message := "Starting download...",
            error_message := "" } : LoadProgress).progress ∧
      ({ status := LoadStatus.DOWNLOADING, progress := 0,
         message := "Starting download...",
         error_message := "" } : LoadProgress).progress ≤ 1) := by
  exact ⟨(C9_progress_events true).1, (C9_progress_events true).2.1 _ (by decide)⟩

end Scrollguard
